import Mathlib

/-!
Verification of the TradeMate batch quote aggregation pipeline.

Shallow embedding of two source files:
- backend route POST /quotes in src/backend/routes/finnhubRoutes.js
  (batch fan-out per symbol, per-item and overall timeouts, status codes)
- the polling/merge logic of fetchLivePrices in
  src/dashboard/src/components/WatchList.jsx
  (client symbol list, price map construction, cache replacement)

Numbers are modelled as Int; JavaScript truthiness of a numeric field
is value-not-zero.  A JS object field that may be absent is an Option.
-/

/-- Raw upstream quote payload, as returned by the provider:
field c is the current price, d the absolute change, dp the percent
change; each field may be absent. -/
structure Payload where
  c : Option Int
  d : Option Int
  dp : Option Int
deriving Repr, DecidableEq

/-- One element of the quotes array in the batch response:
the wire shape of a per-symbol result, with optional data and
optional error string. -/
structure QuoteEntry where
  symbol : String
  data : Option Payload
  error : Option String
deriving Repr, DecidableEq

/-- Outcome of one guarded upstream call for one symbol, i.e. what the
per-symbol promise in the route settles with before normalization:
the per-item timer fired, the client returned an error, or the client
returned a (possibly null, possibly price-less) payload. -/
inductive UpstreamOutcome where
  | timeout
  | err (msg : String)
  | payload (d : Option Payload)
deriving Repr, DecidableEq

/-- JS truthiness of the expression data AND data.c: the payload object
is present and its current-price field is present and nonzero. -/
def hasPrice (d : Option Payload) : Bool :=
  match d with
  | some p =>
    match p.c with
    | some v => v != 0
    | none => false
  | none => false

/-- Per-symbol normalization in the route callback: a per-item timer
fire becomes a Request-timeout entry, an upstream error becomes an
error entry (with a fallback message when the upstream message is the
empty string, mirroring error.message OR Failed-to-fetch), and a
payload becomes a data entry exactly when data and data.c are truthy,
otherwise a No-price-data entry. -/
def resolveQuote (s : String) (o : UpstreamOutcome) : QuoteEntry :=
  match o with
  | .timeout => ⟨s, none, some "Request timeout"⟩
  | .err msg => ⟨s, none, some (if msg = "" then "Failed to fetch" else msg)⟩
  | .payload d =>
    if hasPrice d then ⟨s, d, none⟩ else ⟨s, none, some "No price data available"⟩

/-- Result of one POST /quotes request: HTTP status, the quotes array
when the body carries one, the top-level error string when present, and
the list of symbols for which an upstream call was actually issued. -/
structure RouteResult where
  status : Nat
  quotes : Option (List QuoteEntry)
  error : Option String
  calls : List String
deriving Repr, DecidableEq

/-- The POST /quotes handler.  Inputs: whether the upstream client was
configured, the symbols field of the request body (none models a
missing or non-array field), the outcome each symbol's guarded upstream
call settles with, and whether the overall 3000 ms timer won the race
against the join of all per-symbol promises.  Faithful to the source:
missing client gives 503 with a per-symbol error list and no upstream
calls; missing or empty symbols gives 400; an overall timeout discards
all per-symbol results and maps every submitted symbol to a
Request-timeout entry with status 504; otherwise status 200 with one
resolved entry per submitted symbol, duplicates included. -/
def quotesRoute (clientConfigured : Bool) (body : Option (List String))
    (oc : String → UpstreamOutcome) (overallTimedOut : Bool) : RouteResult :=
  match clientConfigured with
  | false =>
    { status := 503
      quotes := some ((body.getD []).map (fun s => ⟨s, none, some "API key not configured"⟩))
      error := some "Finnhub API key not configured"
      calls := [] }
  | true =>
    match body with
    | none =>
      { status := 400, quotes := none, error := some "Symbols array is required", calls := [] }
    | some symbols =>
      if symbols.isEmpty then
        { status := 400, quotes := none, error := some "Symbols array is required", calls := [] }
      else if overallTimedOut then
        { status := 504
          quotes := some (symbols.map (fun s => ⟨s, none, some "Request timeout"⟩))
          error := some "Request timeout"
          calls := symbols }
      else
        { status := 200
          quotes := some (symbols.map (fun s => resolveQuote s (oc s)))
          error := none
          calls := symbols }

/-- One entry of the client-side live price map built by
fetchLivePrices: price, absolute change, percent change, and the
down flag. -/
structure LiveEntry where
  price : Int
  change : Int
  percentChange : Int
  isDown : Bool
deriving Repr, DecidableEq

/-- Client-side shaping of an accepted payload, with JS OR-zero
defaulting of missing fields: price is data.c OR 0, change is
data.d OR 0, percentChange is data.dp OR 0, and isDown is whether the
defaulted change is negative. -/
def toLiveEntry (p : Payload) : LiveEntry :=
  { price := p.c.getD 0
    change := p.d.getD 0
    percentChange := p.dp.getD 0
    isDown := p.d.getD 0 < 0 }

/-- The client admission test for one quotes entry, the condition
data AND (NOT error) AND data.c: data present, error absent (or the
falsy empty string), and the current price truthy. -/
def accepted (q : QuoteEntry) : Bool :=
  q.data.isSome
    && (match q.error with | none => true | some s => s = "")
    && hasPrice q.data

/-- The live price cache: a map from symbol to its latest accepted
entry, modelling the JS priceMap object under key lookup. -/
def emptyCache : String → Option LiveEntry := fun _ => none

/-- JS object assignment priceMap[symbol] = v, observed through key
lookup. -/
def setKey (m : String → Option LiveEntry) (k : String) (v : LiveEntry) :
    String → Option LiveEntry :=
  fun s => if s = k then some v else m s

/-- One iteration of the forEach loop building priceMap: an accepted
entry writes its shaped payload under its symbol, everything else is
skipped. -/
def mergeStep (m : String → Option LiveEntry) (q : QuoteEntry) :
    String → Option LiveEntry :=
  match q.data with
  | some p => if accepted q then setKey m q.symbol (toLiveEntry p) else m
  | none => m

/-- The price map built from one quotes array, starting from an empty
object. -/
def buildPriceMap (quotes : List QuoteEntry) : String → Option LiveEntry :=
  quotes.foldl mergeStep emptyCache

/-- successCount of one cycle: the number of accepted entries in the
quotes array. -/
def successCount (quotes : List QuoteEntry) : Nat :=
  quotes.countP (fun q => accepted q)

/-- The cache update of one polling cycle: when at least one entry was
accepted, setLivePrices replaces the whole cache by the freshly built
price map; otherwise the cache is left as it was. -/
def cycleMerge (cache : String → Option LiveEntry) (quotes : List QuoteEntry) :
    String → Option LiveEntry :=
  if 0 < successCount quotes then buildPriceMap quotes else cache

/-- The arrival of one cycle's response at the merge point.  cycleId is
ghost information recording which tick started the cycle; the code
never inspects it.  mounted is the isMounted flag at arrival time, and
quotes is the quotes field of the response (none models a response
without one). -/
structure MergeEvent where
  cycleId : Nat
  mounted : Bool
  quotes : Option (List QuoteEntry)
deriving Repr, DecidableEq

/-- The merge guard of fetchLivePrices: the cycle's result is applied
only when the component is still mounted and the response carries a
quotes array; the cycle id plays no role. -/
def applyEvent (cache : String → Option LiveEntry) (ev : MergeEvent) :
    String → Option LiveEntry :=
  match ev.quotes with
  | some qs => if ev.mounted then cycleMerge cache qs else cache
  | none => cache

/-- A polling session as a sequence of merge-point arrivals applied to
an initially empty cache. -/
def runEvents (evs : List MergeEvent) : String → Option LiveEntry :=
  evs.foldl applyEvent emptyCache

/-- A polling session in which every cycle completes in order while
mounted: the cache is the fold of the per-cycle merges over an
initially empty cache. -/
def runSession (cycles : List (List QuoteEntry)) : String → Option LiveEntry :=
  cycles.foldl cycleMerge emptyCache

/-- First-occurrence de-duplication with an accumulator of already seen
names: the iteration order of a JS Set built from a list. -/
def jsSetDedupAux (seen : List String) : List String → List String
  | [] => []
  | x :: xs =>
    if x ∈ seen then jsSetDedupAux seen xs
    else x :: jsSetDedupAux (x :: seen) xs

/-- The spread of new Set(l): the distinct elements of l in order of
first occurrence. -/
def jsSetDedup (l : List String) : List String := jsSetDedupAux [] l

/-- The symbol list one WatchList polling cycle sends to the batch
endpoint: the de-duplicated watchlist names, sliced to the first 10. -/
def clientSymbols (names : List String) : List String :=
  (jsSetDedup names).take 10

/-! ## Helper lemmas -/

/-- Normalization keeps the symbol of its input. -/
theorem resolveQuote_symbol (s : String) (o : UpstreamOutcome) :
    (resolveQuote s o).symbol = s := by
  cases o with
  | timeout => rfl
  | err msg => rfl
  | payload d =>
    simp only [resolveQuote]
    split <;> rfl

/-- In a duplicate-free list of strings every member is counted exactly
once. -/
theorem countP_eq_one_of_nodup (l : List String) :
    l.Nodup → ∀ s ∈ l, l.countP (fun x => decide (x = s)) = 1 := by
  induction l with
  | nil => intro _ s hs; cases hs
  | cons a t ih =>
    intro hl s hs
    rw [List.nodup_cons] at hl
    rcases List.mem_cons.mp hs with h | h
    · subst h
      rw [List.countP_cons]
      have h0 : t.countP (fun x => decide (x = s)) = 0 := by
        rw [List.countP_eq_zero]
        intro x hx
        simp only [decide_eq_true_eq]
        intro hxs
        exact hl.1 (hxs ▸ hx)
      simp [h0]
    · have hne : a ≠ s := fun he => hl.1 (he ▸ h)
      rw [List.countP_cons]
      simp [hne, ih hl.2 s h]

/-- A key present after one forEach step was either present before the
step, or was written by this step from an accepted entry with that
symbol. -/
theorem mergeStep_lookup (m : String → Option LiveEntry) (q : QuoteEntry)
    (s : String) (e : LiveEntry) (h : mergeStep m q s = some e) :
    m s = some e ∨ (q.symbol = s ∧ accepted q = true) := by
  rcases hd : q.data with _ | p
  · unfold mergeStep at h
    rw [hd] at h
    exact Or.inl h
  · unfold mergeStep at h
    rw [hd] at h
    have h2 : (if accepted q = true then setKey m q.symbol (toLiveEntry p) else m) s = some e := h
    by_cases hacc : accepted q
    · rw [if_pos hacc] at h2
      simp only [setKey] at h2
      by_cases hs2 : s = q.symbol
      · exact Or.inr ⟨hs2.symm, hacc⟩
      · rw [if_neg hs2] at h2
        exact Or.inl h2
    · rw [if_neg hacc] at h2
      exact Or.inl h2

/-- A key present after folding the forEach loop over a quotes array
was either present initially or was written from an accepted entry of
the array with that symbol. -/
theorem lookup_foldl_mergeStep (quotes : List QuoteEntry) :
    ∀ (m : String → Option LiveEntry) (s : String) (e : LiveEntry),
      (quotes.foldl mergeStep m) s = some e →
      m s = some e ∨ ∃ q ∈ quotes, q.symbol = s ∧ accepted q = true := by
  induction quotes with
  | nil => intro m s e h; exact Or.inl h
  | cons q rest ih =>
    intro m s e h
    simp only [List.foldl_cons] at h
    rcases ih (mergeStep m q) s e h with h1 | ⟨q', hq', hsym, hacc⟩
    · rcases mergeStep_lookup m q s e h1 with h2 | ⟨hsym, hacc⟩
      · exact Or.inl h2
      · exact Or.inr ⟨q, List.mem_cons_self q rest, hsym, hacc⟩
    · exact Or.inr ⟨q', List.mem_cons_of_mem q hq', hsym, hacc⟩

/-- A key present in a freshly built price map comes from an accepted
entry of the quotes array with that symbol. -/
theorem lookup_buildPriceMap (quotes : List QuoteEntry) (s : String) (e : LiveEntry)
    (h : buildPriceMap quotes s = some e) :
    ∃ q ∈ quotes, q.symbol = s ∧ accepted q = true := by
  rcases lookup_foldl_mergeStep quotes emptyCache s e h with h1 | h2
  · exact absurd h1 (by simp [emptyCache])
  · exact h2

/-- A key present after one polling-cycle merge was either present in
the previous cache or comes from an accepted entry of this cycle. -/
theorem cycleMerge_lookup (cache : String → Option LiveEntry)
    (quotes : List QuoteEntry) (s : String) (e : LiveEntry)
    (h : cycleMerge cache quotes s = some e) :
    cache s = some e ∨ ∃ q ∈ quotes, q.symbol = s ∧ accepted q = true := by
  unfold cycleMerge at h
  split at h
  · exact Or.inr (lookup_buildPriceMap quotes s e h)
  · exact Or.inl h

/-- A key present after a sequence of cycle merges was either present
initially or comes from an accepted entry of one of the cycles. -/
theorem lookup_foldl_cycleMerge (cycles : List (List QuoteEntry)) :
    ∀ (init : String → Option LiveEntry) (s : String) (e : LiveEntry),
      (cycles.foldl cycleMerge init) s = some e →
      init s = some e ∨ ∃ cyc ∈ cycles, ∃ q ∈ cyc, q.symbol = s ∧ accepted q = true := by
  induction cycles with
  | nil => intro init s e h; exact Or.inl h
  | cons c cs ih =>
    intro init s e h
    simp only [List.foldl_cons] at h
    rcases ih (cycleMerge init c) s e h with h1 | ⟨cyc, hcyc, hq⟩
    · rcases cycleMerge_lookup init c s e h1 with h2 | h2
      · exact Or.inl h2
      · exact Or.inr ⟨c, List.mem_cons_self c cs, h2⟩
    · exact Or.inr ⟨cyc, List.mem_cons_of_mem c hcyc, hq⟩

/-- Every name kept by the first-occurrence de-duplication occurs in
the input list. -/
theorem mem_of_mem_jsSetDedupAux (l : List String) :
    ∀ (seen : List String) (s : String), s ∈ jsSetDedupAux seen l → s ∈ l := by
  induction l with
  | nil => intro seen s h; cases h
  | cons x xs ih =>
    intro seen s h
    unfold jsSetDedupAux at h
    split at h
    · exact List.mem_cons_of_mem x (ih seen s h)
    · rcases List.mem_cons.mp h with h1 | h1
      · exact h1 ▸ List.mem_cons_self x xs
      · exact List.mem_cons_of_mem x (ih (x :: seen) s h1)

/-- Names already seen are never emitted again by the de-duplication. -/
theorem not_seen_jsSetDedupAux (l : List String) :
    ∀ (seen : List String) (s : String), s ∈ jsSetDedupAux seen l → s ∉ seen := by
  induction l with
  | nil => intro seen s h; cases h
  | cons x xs ih =>
    intro seen s h
    unfold jsSetDedupAux at h
    split at h
    · exact ih seen s h
    · rename_i hx
      rcases List.mem_cons.mp h with h1 | h1
      · exact h1 ▸ hx
      · intro hs
        exact ih (x :: seen) s h1 (List.mem_cons_of_mem x hs)

/-- The de-duplicated list is duplicate-free. -/
theorem nodup_jsSetDedupAux (l : List String) :
    ∀ seen : List String, (jsSetDedupAux seen l).Nodup := by
  induction l with
  | nil => intro seen; simp [jsSetDedupAux]
  | cons x xs ih =>
    intro seen
    unfold jsSetDedupAux
    split
    · exact ih seen
    · rw [List.nodup_cons]
      refine ⟨fun hx => ?_, ih (x :: seen)⟩
      exact not_seen_jsSetDedupAux xs (x :: seen) x hx (List.mem_cons_self x seen)

/-- Every entry of a batch envelope carries one of the submitted
symbols. -/
theorem envelope_symbol_mem (syms : List String) (oc : String → UpstreamOutcome)
    (t : Bool) (env : List QuoteEntry)
    (h : (quotesRoute true (some syms) oc t).quotes = some env) :
    ∀ q ∈ env, q.symbol ∈ syms := by
  intro q hq
  simp only [quotesRoute] at h
  by_cases hs : syms.isEmpty
  · rw [if_pos hs] at h
    exact Option.noConfusion (show (none : Option (List QuoteEntry)) = some env from h)
  · rw [if_neg hs] at h
    cases t with
    | true =>
      rw [if_pos rfl] at h
      have henv := Option.some.inj
        (show some (syms.map (fun s => (⟨s, none, some "Request timeout"⟩ : QuoteEntry)))
              = some env from h)
      subst henv
      rcases List.mem_map.mp hq with ⟨a, ha, rfl⟩
      exact ha
    | false =>
      rw [if_neg (by simp)] at h
      have henv := Option.some.inj
        (show some (syms.map (fun s => resolveQuote s (oc s))) = some env from h)
      subst henv
      rcases List.mem_map.mp hq with ⟨a, ha, rfl⟩
      rw [resolveQuote_symbol]
      exact ha

/-- In a list of entries obtained by mapping a symbol-preserving
constructor over a duplicate-free symbol list, each submitted symbol
is carried by exactly one entry. -/
theorem countP_symbol_map (syms : List String) (f : String → QuoteEntry)
    (hf : ∀ a, (f a).symbol = a) (hnd : syms.Nodup) (s : String) (hs : s ∈ syms) :
    (syms.map f).countP (fun q => decide (q.symbol = s)) = 1 := by
  rw [List.countP_map]
  have hc : syms.countP ((fun q => decide (q.symbol = s)) ∘ f)
      = syms.countP (fun x => decide (x = s)) := by
    apply List.countP_congr
    intro x _
    simp [Function.comp, hf]
  rw [hc]
  exact countP_eq_one_of_nodup syms hnd s hs

/-! ## Claims -/

/-- C1 counterexample: the batch route does not de-duplicate the
submitted collection.  Submitting the two-element collection A, A
yields an envelope with two entries for the single distinct symbol A,
so the envelope does not contain exactly one QuoteResult per distinct
symbol. -/
theorem c1_batch_dedup_counterexample :
    ((quotesRoute true (some ["A", "A"]) (fun _ => UpstreamOutcome.timeout) false).quotes.getD
        []).countP (fun q => decide (q.symbol = "A")) = 2
    ∧ jsSetDedup ["A", "A"] = ["A"] := by
  exact ⟨rfl, rfl⟩

/-- C1 (amended): the route performs no de-duplication; the envelope
contains exactly one QuoteResult per element of the submitted list, so
when the submitted list is already duplicate-free it contains exactly
one entry (success or failure) per distinct symbol, regardless of how
many lookups succeed and also when the overall timer fires. -/
theorem c1_batch_envelope_per_symbol (syms : List String) (oc : String → UpstreamOutcome)
    (t : Bool) (env : List QuoteEntry) (hnd : syms.Nodup)
    (henv : (quotesRoute true (some syms) oc t).quotes = some env) :
    env.length = syms.length ∧
    ∀ s ∈ syms, env.countP (fun q => decide (q.symbol = s)) = 1 := by
  simp only [quotesRoute] at henv
  by_cases hs0 : syms.isEmpty
  · rw [if_pos hs0] at henv
    exact Option.noConfusion (show (none : Option (List QuoteEntry)) = some env from henv)
  · rw [if_neg hs0] at henv
    cases t with
    | true =>
      rw [if_pos rfl] at henv
      have he := Option.some.inj
        (show some (syms.map (fun s => (⟨s, none, some "Request timeout"⟩ : QuoteEntry)))
          = some env from henv)
      subst he
      refine ⟨by simp, ?_⟩
      intro s hs
      exact countP_symbol_map syms _ (fun a => rfl) hnd s hs
    | false =>
      rw [if_neg (by simp)] at henv
      have he := Option.some.inj
        (show some (syms.map (fun s => resolveQuote s (oc s))) = some env from henv)
      subst he
      refine ⟨by simp, ?_⟩
      intro s hs
      exact countP_symbol_map syms _ (fun a => resolveQuote_symbol a (oc a)) hnd s hs

/-- C1 witness: the amended theorem applied to the concrete
duplicate-free submission A, B with every lookup timing out. -/
theorem c1_batch_envelope_per_symbol_witness :
    (List.map (fun s => resolveQuote s UpstreamOutcome.timeout) ["A", "B"]).length = 2 ∧
    (List.map (fun s => resolveQuote s UpstreamOutcome.timeout) ["A", "B"]).countP
      (fun q => decide (q.symbol = "A")) = 1 := by
  have h := c1_batch_envelope_per_symbol ["A", "B"] (fun _ => UpstreamOutcome.timeout) false
    (List.map (fun s => resolveQuote s UpstreamOutcome.timeout) ["A", "B"]) (by decide) rfl
  exact ⟨h.1, h.2 "A" (by decide)⟩

/-- C2 counterexample: symbol A resolved with a real success (its
guarded call settled with a price-bearing payload, as the second
conjunct shows), yet when the overall timer fires the envelope reports
Request timeout for A as well, instead of keeping the real result. -/
theorem c2_overall_timeout_counterexample :
    (quotesRoute true (some ["A", "B"])
        (fun _ => UpstreamOutcome.payload (some ⟨some 150, some 1, some 1⟩)) true).quotes =
      some [⟨"A", none, some "Request timeout"⟩, ⟨"B", none, some "Request timeout"⟩]
    ∧ resolveQuote "A" (UpstreamOutcome.payload (some ⟨some 150, some 1, some 1⟩)) =
        ⟨"A", some ⟨some 150, some 1, some 1⟩, none⟩ := by
  exact ⟨rfl, rfl⟩

/-- C2 (amended): when the overall deadline fires before the join
completes, the route discards all per-symbol results and returns a 504
envelope in which every submitted symbol, resolved or not, is reported
as a Request-timeout failure with no data. -/
theorem c2_overall_timeout_discards_all (syms : List String) (oc : String → UpstreamOutcome)
    (hne : syms ≠ []) :
    (quotesRoute true (some syms) oc true).status = 504 ∧
    ∀ q ∈ (quotesRoute true (some syms) oc true).quotes.getD [],
      q.data = none ∧ q.error = some "Request timeout" := by
  have hs0 : ¬(syms.isEmpty = true) := fun h => hne (List.isEmpty_iff.mp h)
  constructor
  · simp only [quotesRoute]
    rw [if_neg hs0]
    rw [if_pos trivial]
  · intro q hq
    simp only [quotesRoute] at hq
    rw [if_neg hs0] at hq
    rw [if_pos trivial] at hq
    have hq2 : q ∈ syms.map (fun s => (⟨s, none, some "Request timeout"⟩ : QuoteEntry)) := hq
    rcases List.mem_map.mp hq2 with ⟨a, _, rfl⟩
    exact ⟨rfl, rfl⟩

/-- C2 witness: the amended theorem applied to the concrete submission
consisting of the single symbol A. -/
theorem c2_overall_timeout_discards_all_witness :
    (quotesRoute true (some ["A"]) (fun _ => UpstreamOutcome.timeout) true).status = 504 := by
  exact (c2_overall_timeout_discards_all ["A"] (fun _ => UpstreamOutcome.timeout)
    (List.cons_ne_nil _ _)).1

/-- C3 counterexample: an empty submitted symbol set does not produce
an immediate empty envelope; the route answers with the 400 error
response and no quotes array at all. -/
theorem c3_empty_set_counterexample :
    (quotesRoute true (some []) (fun _ => UpstreamOutcome.timeout) false).status = 400
    ∧ (quotesRoute true (some []) (fun _ => UpstreamOutcome.timeout) false).quotes = none
    ∧ (quotesRoute true (some []) (fun _ => UpstreamOutcome.timeout) false).status ≠ 200 := by
  exact ⟨rfl, rfl, by decide⟩

/-- C3 (amended): an empty symbol collection is rejected immediately
with status 400, the Symbols-array-is-required error, no envelope, and
no upstream network call is issued. -/
theorem c3_empty_set_bad_request (oc : String → UpstreamOutcome) (t : Bool) :
    (quotesRoute true (some []) oc t).status = 400 ∧
    (quotesRoute true (some []) oc t).quotes = none ∧
    (quotesRoute true (some []) oc t).error = some "Symbols array is required" ∧
    (quotesRoute true (some []) oc t).calls = [] := by
  exact ⟨rfl, rfl, rfl, rfl⟩

/-- C4 counterexample: a cache holding a live entry for AAPL, hit by a
cycle in which AAPL fails with a timeout while MSFT succeeds, does not
keep its AAPL entry: the merge replaces the whole cache with the new
map and the AAPL entry disappears. -/
theorem c4_stale_cache_counterexample :
    (setKey emptyCache "AAPL" ⟨150, 1, 1, false⟩) "AAPL" = some ⟨150, 1, 1, false⟩
    ∧ cycleMerge (setKey emptyCache "AAPL" ⟨150, 1, 1, false⟩)
        [⟨"AAPL", none, some "Request timeout"⟩, ⟨"MSFT", some ⟨some 200, some 2, some 1⟩, none⟩]
        "AAPL" = none := by
  exact ⟨rfl, rfl⟩

/-- C4 (amended): a failed result for a symbol leaves its previous
cache entry untouched only when the whole cycle produced no success at
all, in which case the merge is skipped; as soon as at least one symbol
succeeds, the cache is replaced wholesale by the freshly built map, so
a symbol that produced no accepted entry this cycle ends up with no
cache entry, its stale value included. -/
theorem c4_stale_cache_policy (cache : String → Option LiveEntry) (quotes : List QuoteEntry)
    (s : String) :
    (successCount quotes = 0 → cycleMerge cache quotes = cache) ∧
    (0 < successCount quotes → (∀ q ∈ quotes, q.symbol = s → accepted q = false) →
      cycleMerge cache quotes s = none) := by
  constructor
  · intro h0
    unfold cycleMerge
    rw [if_neg (by omega)]
  · intro hpos hfail
    unfold cycleMerge
    rw [if_pos hpos]
    rcases hb : buildPriceMap quotes s with _ | e
    · rfl
    · exfalso
      rcases lookup_buildPriceMap quotes s e hb with ⟨q, hq, hsym, hacc⟩
      rw [hfail q hq hsym] at hacc
      exact Bool.noConfusion hacc

/-- C4 witness: the amended theorem applied to a concrete all-failure
cycle (merge skipped, cache kept) and to a concrete mixed cycle (AAPL
failed, MSFT succeeded, AAPL entry gone). -/
theorem c4_stale_cache_policy_witness :
    cycleMerge (setKey emptyCache "AAPL" ⟨150, 1, 1, false⟩)
        [⟨"AAPL", none, some "Request timeout"⟩]
      = setKey emptyCache "AAPL" ⟨150, 1, 1, false⟩
    ∧ cycleMerge emptyCache
        [⟨"AAPL", none, some "Request timeout"⟩, ⟨"MSFT", some ⟨some 200, some 2, some 1⟩, none⟩]
        "AAPL" = none := by
  refine ⟨(c4_stale_cache_policy _ _ "AAPL").1 (by decide), ?_⟩
  exact (c4_stale_cache_policy emptyCache _ "AAPL").2 (by decide) (by decide)

/-- C5 counterexample: the payload with current price 0 carries a
numeric current-price field, yet the normalizer rejects it as having
no price data, because the source tests JS truthiness of data.c rather
than numeric presence. -/
theorem c5_invalid_payload_counterexample :
    (Payload.mk (some 0) none none).c.isSome = true
    ∧ (resolveQuote "AAPL" (UpstreamOutcome.payload (some ⟨some 0, none, none⟩))).error
        = some "No price data available"
    ∧ (resolveQuote "AAPL" (UpstreamOutcome.payload (some ⟨some 0, none, none⟩))).data = none := by
  exact ⟨rfl, rfl, rfl⟩

/-- C5 (amended): for a payload object that is present, the normalizer
reports the no-price failure exactly when the current-price field is
missing or equal to 0 (falsy); any payload with a nonzero numeric
current price yields the success entry carrying the payload; an absent
payload object is likewise a no-price failure. -/
theorem c5_price_check (s : String) (p : Payload) :
    ((resolveQuote s (UpstreamOutcome.payload (some p))).error = some "No price data available"
      ↔ (p.c = none ∨ p.c = some 0)) ∧
    (∀ v : Int, p.c = some v → v ≠ 0 →
      resolveQuote s (UpstreamOutcome.payload (some p)) = ⟨s, some p, none⟩) ∧
    (resolveQuote s (UpstreamOutcome.payload none)).error = some "No price data available" := by
  refine ⟨?_, ?_, rfl⟩
  · rcases hc : p.c with _ | v
    · simp [resolveQuote, hasPrice, hc]
    · by_cases hv : v = 0
      · subst hv
        simp [resolveQuote, hasPrice, hc]
      · simp [resolveQuote, hasPrice, hc, hv]
  · intro v hcv hv
    simp [resolveQuote, hasPrice, hcv, hv]

/-- C5 witness: the amended theorem applied to the concrete payload
with current price 150. -/
theorem c5_price_check_witness :
    resolveQuote "AAPL" (UpstreamOutcome.payload (some ⟨some 150, some 1, some 1⟩))
      = ⟨"AAPL", some ⟨some 150, some 1, some 1⟩, none⟩ := by
  exact (c5_price_check "AAPL" ⟨some 150, some 1, some 1⟩).2.1 150 rfl (by decide)

/-- C6: the batch endpoint answers 503 when the upstream client is not
configured, 400 when the symbols field is missing or the array is
empty, 504 when the overall deadline elapsed, and 200 otherwise, for
every outcome assignment, including one in which every per-symbol
lookup fails. -/
theorem c6_status_codes (body : Option (List String)) (oc : String → UpstreamOutcome)
    (t : Bool) :
    (quotesRoute false body oc t).status = 503 ∧
    (quotesRoute true none oc t).status = 400 ∧
    (quotesRoute true (some []) oc t).status = 400 ∧
    (∀ syms : List String, syms ≠ [] → (quotesRoute true (some syms) oc true).status = 504) ∧
    (∀ syms : List String, syms ≠ [] → (quotesRoute true (some syms) oc false).status = 200) := by
  refine ⟨rfl, rfl, rfl, ?_, ?_⟩
  · intro syms hne
    have hs0 : ¬(syms.isEmpty = true) := fun h => hne (List.isEmpty_iff.mp h)
    simp only [quotesRoute]
    rw [if_neg hs0]
    rw [if_pos trivial]
  · intro syms hne
    have hs0 : ¬(syms.isEmpty = true) := fun h => hne (List.isEmpty_iff.mp h)
    simp only [quotesRoute]
    rw [if_neg hs0]
    rw [if_neg (by simp)]

/-- C6 witness: the status theorem applied to the concrete submission
A whose only lookup fails upstream; the response is transport-level 200
even though every per-symbol entry is a failure. -/
theorem c6_status_codes_witness :
    (quotesRoute true (some ["A"]) (fun _ => UpstreamOutcome.err "boom") false).status = 200
    ∧ ((quotesRoute true (some ["A"]) (fun _ => UpstreamOutcome.err "boom") false).quotes.getD
        []).all (fun q => q.error.isSome) = true := by
  refine ⟨(c6_status_codes (some ["A"]) (fun _ => UpstreamOutcome.err "boom")
    false).2.2.2.2 ["A"] (List.cons_ne_nil _ _), ?_⟩
  rfl

/-- C7: a valid payload (nonzero numeric current price) normalizes to a
success entry, and the client-side shaping defaults a missing absolute
change or percent change to zero instead of failing or omitting the
field. -/
theorem c7_change_defaults (s : String) (p : Payload) (v : Int)
    (hc : p.c = some v) (hv : v ≠ 0) :
    (resolveQuote s (UpstreamOutcome.payload (some p))).error = none ∧
    (resolveQuote s (UpstreamOutcome.payload (some p))).data = some p ∧
    (p.d = none → (toLiveEntry p).change = 0) ∧
    (p.dp = none → (toLiveEntry p).percentChange = 0) := by
  have hp : hasPrice (some p) = true := by simp [hasPrice, hc, hv]
  refine ⟨?_, ?_, ?_, ?_⟩
  · simp [resolveQuote, hp]
  · simp [resolveQuote, hp]
  · intro hd
    simp [toLiveEntry, hd]
  · intro hdp
    simp [toLiveEntry, hdp]

/-- C7 witness: the defaulting theorem applied to the concrete valid
payload with price 150 and both change fields absent. -/
theorem c7_change_defaults_witness :
    (resolveQuote "AAPL" (UpstreamOutcome.payload (some ⟨some 150, none, none⟩))).error = none
    ∧ (toLiveEntry ⟨some 150, none, none⟩).change = 0
    ∧ (toLiveEntry ⟨some 150, none, none⟩).percentChange = 0 := by
  have h := c7_change_defaults "AAPL" ⟨some 150, none, none⟩ 150 rfl (by decide)
  exact ⟨h.1, h.2.2.1 rfl, h.2.2.2 rfl⟩

/-- C8: whenever the live price cache of a polling session holds an
entry for a symbol, some completed cycle of the session contained an
accepted entry for that symbol, i.e. a successful price-bearing quote;
every cache write is backed by such a success. -/
theorem c8_cache_success_invariant (cycles : List (List QuoteEntry)) (s : String)
    (e : LiveEntry) (h : runSession cycles s = some e) :
    ∃ cyc ∈ cycles, ∃ q ∈ cyc, q.symbol = s ∧ accepted q = true := by
  rcases lookup_foldl_cycleMerge cycles emptyCache s e h with h1 | h2
  · exact absurd h1 (by simp [emptyCache])
  · exact h2

/-- C8 witness: the invariant applied to a concrete one-cycle session
whose single quote for AAPL succeeded. -/
theorem c8_cache_success_invariant_witness :
    ∃ cyc ∈ [[(⟨"AAPL", some ⟨some 150, some 1, some 1⟩, none⟩ : QuoteEntry)]],
      ∃ q ∈ cyc, q.symbol = "AAPL" ∧ accepted q = true := by
  exact c8_cache_success_invariant [[⟨"AAPL", some ⟨some 150, some 1, some 1⟩, none⟩]]
    "AAPL" (toLiveEntry ⟨some 150, some 1, some 1⟩) rfl

/-- C9 counterexample: cycle 2 (the newer cycle) merges AAPL at price
200 first; the slower result of cycle 1 (price 150) then arrives while
the component is still mounted and is applied, overwriting the newer
value: the final cache holds 150, not 200, so the late result was not
discarded. -/
theorem c9_sequence_admission_counterexample :
    runEvents [⟨2, true, some [⟨"AAPL", some ⟨some 200, some 2, some 1⟩, none⟩]⟩,
               ⟨1, true, some [⟨"AAPL", some ⟨some 150, some 1, some 1⟩, none⟩]⟩]
        "AAPL" = some ⟨150, 1, 1, false⟩
    ∧ (⟨150, 1, 1, false⟩ : LiveEntry) ≠ ⟨200, 2, 1, false⟩ := by
  exact ⟨rfl, by decide⟩

/-- C9 (amended): the merge step admits a cycle result based solely on
the mounted flag, never on cycle age: a late result from an older cycle
that arrives while mounted after a newer cycle has merged is applied
and its map replaces the cache, whatever the two cycle ids are; a
result arriving after unmount is the only kind that is discarded. -/
theorem c9_mounted_only_admission (cache : String → Option LiveEntry)
    (id1 id2 : Nat) (qs1 qs2 : List QuoteEntry) :
    (0 < successCount qs1 →
      applyEvent (applyEvent cache ⟨id2, true, some qs2⟩) ⟨id1, true, some qs1⟩
        = buildPriceMap qs1) ∧
    (∀ q : Option (List QuoteEntry), applyEvent cache ⟨id1, false, q⟩ = cache) := by
  constructor
  · intro hpos
    show cycleMerge (applyEvent cache ⟨id2, true, some qs2⟩) qs1 = buildPriceMap qs1
    unfold cycleMerge
    rw [if_pos hpos]
  · intro q
    cases q with
    | none => rfl
    | some qs => rfl

/-- C9 witness: the amended theorem applied to the concrete pair of
cycles of the counterexample, cycle 1 older and arriving last. -/
theorem c9_mounted_only_admission_witness :
    applyEvent
        (applyEvent emptyCache ⟨2, true, some [⟨"AAPL", some ⟨some 200, some 2, some 1⟩, none⟩]⟩)
        ⟨1, true, some [⟨"AAPL", some ⟨some 150, some 1, some 1⟩, none⟩]⟩
      = buildPriceMap [⟨"AAPL", some ⟨some 150, some 1, some 1⟩, none⟩] := by
  exact (c9_mounted_only_admission emptyCache 1 2
    [⟨"AAPL", some ⟨some 150, some 1, some 1⟩, none⟩]
    [⟨"AAPL", some ⟨some 200, some 2, some 1⟩, none⟩]).1 (by decide)

/-- C10: one WatchList polling cycle requests the first-occurrence
de-duplication of the watchlist names truncated to its first 10
elements: the request carries at most 10 duplicate-free symbols, all
taken from the watchlist, and any symbol that gains a live price from
the cycle (merging the batch envelope of that request into an empty
cache) is one of those at most 10 requested symbols, so names beyond
the tenth unique one never receive live prices. -/
theorem c10_symbol_limit (names : List String) (oc : String → UpstreamOutcome) (t : Bool)
    (env : List QuoteEntry) (s : String) (e : LiveEntry) :
    (clientSymbols names).length ≤ 10 ∧
    (clientSymbols names).Nodup ∧
    (∀ x ∈ clientSymbols names, x ∈ names) ∧
    ((quotesRoute true (some (clientSymbols names)) oc t).quotes = some env →
      cycleMerge emptyCache env s = some e → s ∈ clientSymbols names) := by
  refine ⟨?_, ?_, ?_, ?_⟩
  · simp only [clientSymbols, List.length_take]
    exact min_le_left _ _
  · exact List.Nodup.sublist (List.take_sublist 10 (jsSetDedup names))
      (nodup_jsSetDedupAux names [])
  · intro x hx
    exact mem_of_mem_jsSetDedupAux names [] x
      ((List.take_sublist 10 (jsSetDedup names)).subset hx)
  · intro henv hmerge
    rcases cycleMerge_lookup emptyCache env s e hmerge with h1 | ⟨q, hq, hsym, _⟩
    · exact absurd h1 (by simp [emptyCache])
    · have hm := envelope_symbol_mem (clientSymbols names) oc t env henv q hq
      rw [hsym] at hm
      exact hm

/-- C10 witness: the theorem applied to the concrete watchlist A, B
with both lookups succeeding; A is requested and receives its live
price. -/
theorem c10_symbol_limit_witness :
    "A" ∈ clientSymbols ["A", "B"] ∧ (clientSymbols ["A", "B"]).length ≤ 10 := by
  have h := c10_symbol_limit ["A", "B"]
    (fun _ => UpstreamOutcome.payload (some ⟨some 150, some 1, some 1⟩)) false
    (List.map
      (fun s => resolveQuote s (UpstreamOutcome.payload (some ⟨some 150, some 1, some 1⟩)))
      ["A", "B"])
    "A" (toLiveEntry ⟨some 150, some 1, some 1⟩)
  exact ⟨h.2.2.2 rfl rfl, h.1⟩
